import Mathlib

/-!
Verification development for the sqflite Tizen plugin's embedded SQL execution
core (`src/packages/sqflite/tizen/src/database_manager.h`). The source file
bundles the `DatabaseManager` header, a legacy revision of `SqflitePlugin`,
and the current revision of `SqflitePlugin`; the definitions below embed the
current revision's registry and call handlers, keeping the source's names.
The native SQLite engine and the missing `database_manager.cc` bodies are
abstracted as an engine record whose operations may fail, following the
header's declarations and the specification of the Database Manager.
-/

set_option autoImplicit false

namespace Sqflite

/-- Flutter `EncodableValue`: the encodable-value union used for method-call
arguments, bound parameters and responses. -/
inductive EncodableValue where
  | nullv
  | boolv (b : Bool)
  | intv (i : Int)
  | realv (f : Float)
  | strv (s : String)
  | blobv (bytes : List Nat)
  | listv (items : List EncodableValue)
  | mapv (entries : List (EncodableValue × EncodableValue))

/-- `DatabaseManager::resultvalue`: the tagged union
`variant<int64_t, string, double, vector<uint8_t>, nullptr_t>` of decoded
column values. -/
inductive DBValue where
  | intVal (i : Int)
  | textVal (s : String)
  | realVal (f : Float)
  | blobVal (bytes : List Nat)
  | nullVal

/-- `SqflitePlugin::DBResultVisitor`: converts a decoded column value to an
`EncodableValue` (null maps to the null encodable value). -/
def dbResultVisitor : DBValue → EncodableValue
  | .intVal i => .intv i
  | .textVal s => .strv s
  | .realVal f => .realv f
  | .blobVal bytes => .blobv bytes
  | .nullVal => .nullv

/-- Abstract native SQLite engine over connection states `σ`.
Modelled from the spec: the bodies of `DatabaseManager::open`,
`DatabaseManager::openReadOnly`, `DatabaseManager::execute` and
`DatabaseManager::query` (`database_manager.cc`) are not under `src/`; per the
header's declarations and spec section 4.2 they establish a native connection
in read-write or read-only mode, execute SQL with bound parameters, or run a
query returning column names plus decoded rows, each failing with a database
error message. -/
structure SqlEngine (σ : Type) where
  openRW : String → Except String σ
  openRO : String → Except String σ
  execSql : σ → String → List EncodableValue → Except String σ
  runQuery : σ → String → List EncodableValue →
    Except String (σ × List String × List (List DBValue))

/-- `DatabaseManager` data: path, id, single-instance flag, log level, and the
`sqlite3 *sqliteDatabase` connection pointer (`none` models a null pointer,
`some s` a live native connection with state `s`). -/
structure DatabaseManager (σ : Type) where
  path : String
  id : Int
  singleInstance : Bool
  logLevel : Int
  sqliteDatabase : Option σ

/-- `DatabaseManager::execute(sql, params)` driven through the abstract
engine. Modelled from the spec: the body is not under `src/`; spec section 4.2
says it binds the parameters and steps the statement, failing with a database
error; once Closed every operation fails with a database-closed condition. -/
def DatabaseManager.executeM {σ : Type} (E : SqlEngine σ) (m : DatabaseManager σ)
    (sql : String) (params : List EncodableValue) : Except String (DatabaseManager σ) :=
  match m.sqliteDatabase with
  | none => .error "database closed"
  | some s =>
    match E.execSql s sql params with
    | .error msg => .error msg
    | .ok s' => .ok { m with sqliteDatabase := some s' }

/-- `DatabaseManager::query(sql, params)` driven through the abstract engine.
Modelled from the spec: the body is not under `src/`; spec section 4.2 says it
runs the same prepare/bind path as execute and collects column names and one
decoded row per step. -/
def DatabaseManager.queryM {σ : Type} (E : SqlEngine σ) (m : DatabaseManager σ)
    (sql : String) (params : List EncodableValue) :
    Except String (DatabaseManager σ × List String × List (List DBValue)) :=
  match m.sqliteDatabase with
  | none => .error "database closed"
  | some s =>
    match E.runQuery s sql params with
    | .error msg => .error msg
    | .ok (s', cols, rs) => .ok ({ m with sqliteDatabase := some s' }, cols, rs)

section Maps

variable {α : Type} {β : Type}

/-- `std::map::find` on an association list (at most one entry per key in
every reachable registry state). -/
def lookupIn [DecidableEq α] : List (α × β) → α → Option β
  | [], _ => none
  | (k', v) :: rest, k => if k' = k then some v else lookupIn rest k

/-- `std::map::insert`: inserts only when the key is absent (it never
overwrites an existing entry). -/
def mapInsert [DecidableEq α] (m : List (α × β)) (k : α) (v : β) : List (α × β) :=
  if (lookupIn m k).isSome then m else m ++ [(k, v)]

/-- `std::map::erase(key)`: removes the entry with the given key. -/
def mapErase [DecidableEq α] : List (α × β) → α → List (α × β)
  | [], _ => []
  | (k', v) :: rest, k => if k' = k then mapErase rest k else (k', v) :: mapErase rest k

/-- In-place mutation of the manager object held behind a key (the C++ map
stores a `shared_ptr`, so mutations through the handler's local pointer are
visible in the map without any key change). -/
def mapUpdate [DecidableEq α] (m : List (α × β)) (k : α) (v : β) : List (α × β) :=
  m.map fun p => if p.1 = k then (k, v) else p

@[simp] theorem lookupIn_nil [DecidableEq α] (k : α) :
    lookupIn ([] : List (α × β)) k = none := rfl

@[simp] theorem lookupIn_cons [DecidableEq α] (k' : α) (v : β) (rest : List (α × β)) (k : α) :
    lookupIn ((k', v) :: rest) k = if k' = k then some v else lookupIn rest k := rfl

theorem lookupIn_mapErase_self [DecidableEq α] (m : List (α × β)) (k : α) :
    lookupIn (mapErase m k) k = none := by
  induction m with
  | nil => rfl
  | cons p rest ih =>
    obtain ⟨k', v⟩ := p
    by_cases h : k' = k
    · simpa [mapErase, h] using ih
    · simp [mapErase, h, ih]

end Maps

/-- The plugin's process-wide registry state: `singleInstancesByPath`,
`databaseMap`, the `queryAsMapList` option and the incremental `databaseId`
allocator. -/
structure PluginState (σ : Type) where
  singleInstancesByPath : List (String × Int)
  databaseMap : List (Int × DatabaseManager σ)
  queryAsMapList : Bool
  databaseId : Int

/-- Structured plugin errors. Modelled from the spec: `constants.h` is not
under `src/`; the handlers report errors with the `ERROR_DATABASE` code and
distinguish the conditions by the distinct message constants
`ERROR_DATABASE_CLOSED` and `ERROR_OPEN_FAILED` versus a native error message
(optionally with sql and arguments attached by `handleQueryException`), which
spec section 7 presents as the distinct conditions DatabaseClosed, OpenFailed
and DatabaseError. -/
inductive PluginError where
  | databaseClosed (id : Int)
  | databaseError (message : String)
  | queryError (message : String) (sql : String) (args : List EncodableValue)
  | openFailed (path : String)

/-- A method-channel reply: `result->Success()` carries no value,
`result->Success(v)` carries one, `result->Error(...)` reports a structured
error, and `result->NotImplemented()` rejects the call. -/
inductive MethodReply where
  | success (value : Option EncodableValue)
  | error (e : PluginError)
  | notImplemented

/-- `SqflitePlugin::isInMemoryPath`: an empty path or the `:memory:` sentinel
(`MEMORY_DATABASE_PATH` from the absent `constants.h`, written literally in
the legacy revision) is an in-memory database path. -/
def isInMemoryPath (path : String) : Bool :=
  path.isEmpty || path = ":memory:"

/-- The mode `DatabaseManager::open`/`openReadOnly` establishes. -/
inductive OpenMode where
  | readWrite
  | readOnly
deriving DecidableEq

/-- Mode dispatch of the current `OnOpenDatabaseCall` revision:
`if (!readOnly) databaseManager->open(); else databaseManager->openReadOnly();`. -/
def openModeDispatch (readOnly : Bool) : OpenMode :=
  if !readOnly then .readWrite else .readOnly

/-- Mode dispatch of the legacy `OnOpenDatabaseCall` revision:
`if (readOnly) databaseManager.open(); else databaseManager.openReadOnly();`. -/
def legacyOpenModeDispatch (readOnly : Bool) : OpenMode :=
  if readOnly then .readWrite else .readOnly

/-- Runs the native open for the requested mode. -/
def engineOpen {σ : Type} (E : SqlEngine σ) (mode : OpenMode) (path : String) :
    Except String σ :=
  match mode with
  | .readWrite => E.openRW path
  | .readOnly => E.openRO path

/-- `SqflitePlugin::makeOpenResult`: the open response map carries the handle
id, plus the recovered marker when the call reused an existing single-instance
handle. -/
def makeOpenResult (databaseId : Int) (recoveredInTransaction : Bool) : EncodableValue :=
  if recoveredInTransaction then
    .mapv [(.strv "id", .intv databaseId), (.strv "recoveredInTransaction", .boolv true)]
  else
    .mapv [(.strv "id", .intv databaseId)]

/-- The single-instance recovery lookup inside `OnOpenDatabaseCall`: a path
entry with a non-zero id whose manager is present and still holds a live
`sqliteDatabase` connection. -/
def findRecoverableId {σ : Type} (st : PluginState σ) (path : String) : Option Int :=
  (lookupIn st.singleInstancesByPath path).bind fun foundDatabaseId =>
    if foundDatabaseId = 0 then none
    else
      (lookupIn st.databaseMap foundDatabaseId).bind fun dbm =>
        if dbm.sqliteDatabase.isSome then some foundDatabaseId else none

/-- `SqflitePlugin::OnOpenDatabaseCall` (current revision): force
single-instance off for in-memory paths, return a recovered handle when the
single-instance lookup succeeds, otherwise allocate `++databaseId`, open the
native connection in the requested mode, and register the new manager (and its
path when single-instance) only on success. -/
def onOpenDatabaseCall {σ : Type} (E : SqlEngine σ) (st : PluginState σ)
    (path : String) (readOnly singleInstance : Bool) : PluginState σ × MethodReply :=
  let inMemory := isInMemoryPath path
  let si := singleInstance && !inMemory
  match (if si then findRecoverableId st path else none) with
  | some foundDatabaseId => (st, .success (some (makeOpenResult foundDatabaseId true)))
  | none =>
    let newDatabaseId := st.databaseId + 1
    match engineOpen E (openModeDispatch readOnly) path with
    | .error _ => ({ st with databaseId := newDatabaseId }, .error (.openFailed path))
    | .ok conn =>
      let dbm : DatabaseManager σ :=
        { path := path, id := newDatabaseId, singleInstance := si, logLevel := 0,
          sqliteDatabase := some conn }
      ({ st with
          databaseId := newDatabaseId,
          singleInstancesByPath :=
            if si then mapInsert st.singleInstancesByPath path newDatabaseId
            else st.singleInstancesByPath,
          databaseMap := mapInsert st.databaseMap newDatabaseId dbm },
        .success (some (makeOpenResult newDatabaseId false)))

/-- `SqflitePlugin::OnCloseDatabaseCall` (current revision): unknown handle
reports the database-closed condition; otherwise the handle entry is erased
(destroying the manager finalizes its statements and closes the connection)
and, when the manager was registered single-instance, its path entry is erased
too. -/
def onCloseDatabaseCall {σ : Type} (st : PluginState σ) (id : Int) :
    PluginState σ × MethodReply :=
  match lookupIn st.databaseMap id with
  | none => (st, .error (.databaseClosed id))
  | some dbm =>
    ({ st with
        databaseMap := mapErase st.databaseMap id,
        singleInstancesByPath :=
          if dbm.singleInstance then mapErase st.singleInstancesByPath dbm.path
          else st.singleInstancesByPath },
      .success none)

/-- `SqflitePlugin::OnExecuteCall` (current revision): unknown handle reports
the database-closed condition; a database error from execute is reported with
the native message; success replies with no value. -/
def onExecuteCall {σ : Type} (E : SqlEngine σ) (st : PluginState σ) (id : Int)
    (sql : String) (args : List EncodableValue) : PluginState σ × MethodReply :=
  match lookupIn st.databaseMap id with
  | none => (st, .error (.databaseClosed id))
  | some dbm =>
    match DatabaseManager.executeM E dbm sql args with
    | .error m => (st, .error (.databaseError m))
    | .ok dbm' =>
      ({ st with databaseMap := mapUpdate st.databaseMap id dbm' }, .success none)

/-- `SqflitePlugin::queryResponse` body (the `query` helper, current
revision): an empty result set replies with an empty list (map-list mode) or
an empty map; otherwise either one map per row keyed by column name, or a map
with the column-name list under `columns` and the row lists under `rows`. -/
def queryResponse (queryAsMapList : Bool) (cols : List String)
    (rs : List (List DBValue)) : EncodableValue :=
  if queryAsMapList then
    if rs.length = 0 then .listv []
    else
      .listv (rs.map fun row =>
        .mapv (List.zipWith (fun c v => (EncodableValue.strv c, dbResultVisitor v)) cols row))
  else
    if rs.length = 0 then .mapv []
    else
      .mapv [(.strv "columns", .listv (cols.map EncodableValue.strv)),
             (.strv "rows", .listv (rs.map fun row => .listv (row.map dbResultVisitor)))]

/-- The manager-internal follow-up SQL of `queryInsertChanges`. -/
def insertChangesSql : String := "SELECT changes(), last_insert_rowid();"

/-- The manager-internal follow-up SQL of `queryUpdateChanges`. -/
def updateChangesSql : String := "SELECT changes();"

/-- `std::get<int64_t>` on a result value: any other alternative throws
`bad_variant_access`, which no handler catches (modelled as `none`). -/
def asInt64 : DBValue → Option Int
  | .intVal i => some i
  | _ => none

/-- The narrowing conversion through the C++ 32-bit `int` variable
`int lastId = 0;` in `queryInsertChanges`, which receives an `int64_t`:
modular reduction into the range from `-2^31` up to `2^31 - 1`. -/
def toInt32 (i : Int) : Int := (i + 2147483648) % 4294967296 - 2147483648

/-- The extraction inside `SqflitePlugin::queryInsertChanges`: `changes` is
the first value of the first row, and `lastId` is the second value of the
first row — narrowed through the 32-bit `int lastId` variable — when
`changes > 0` and `0` otherwise. Reading a missing row or value, or a
non-integer value, is undefined behaviour in the C++ source (vector indexing
out of range or `bad_variant_access`), modelled as `none`. -/
def extractInsertChanges (rs : List (List DBValue)) : Option (Int × Int) :=
  match rs with
  | [] => none
  | firstResult :: _ =>
    (firstResult.get? 0).bind fun v0 =>
      (asInt64 v0).bind fun changes =>
        if changes > 0 then
          (firstResult.get? 1).bind fun v1 =>
            (asInt64 v1).map fun lastId => (changes, toInt32 lastId)
        else some (changes, 0)

/-- The extraction inside `SqflitePlugin::queryUpdateChanges`: the first value
of the first row; ill-typed or missing data is undefined behaviour in the C++
source, modelled as `none`. -/
def extractUpdateChanges (rs : List (List DBValue)) : Option Int :=
  match rs with
  | [] => none
  | firstResult :: _ => (firstResult.get? 0).bind asInt64

/-- `SqflitePlugin::insert` (current revision): execute the caller SQL; when
`noResult` is set reply with a null value at once; otherwise run
`queryInsertChanges` and reply with a null value when `changes == 0` and with
`lastId` otherwise. The outer `Option` is `none` exactly on the undefined
extraction; the inner `Except` carries a thrown `DatabaseError`, together with
the manager state at the throw site. -/
def insertOp {σ : Type} (E : SqlEngine σ) (dbm : DatabaseManager σ) (sql : String)
    (args : List EncodableValue) (noResult : Bool) :
    Option (DatabaseManager σ × Except String EncodableValue) :=
  match DatabaseManager.executeM E dbm sql args with
  | .error m => some (dbm, .error m)
  | .ok dbm1 =>
    if noResult then some (dbm1, .ok .nullv)
    else
      match DatabaseManager.queryM E dbm1 insertChangesSql [] with
      | .error m => some (dbm1, .error m)
      | .ok (dbm2, _, rs) =>
        match extractInsertChanges rs with
        | none => none
        | some (changes, lastId) =>
          some (dbm2, .ok (if changes = 0 then .nullv else .intv lastId))

/-- `SqflitePlugin::update` (current revision): execute the caller SQL; when
`noResult` is set reply with a null value at once; otherwise run
`queryUpdateChanges` and reply with the affected-row count. -/
def updateOp {σ : Type} (E : SqlEngine σ) (dbm : DatabaseManager σ) (sql : String)
    (args : List EncodableValue) (noResult : Bool) :
    Option (DatabaseManager σ × Except String EncodableValue) :=
  match DatabaseManager.executeM E dbm sql args with
  | .error m => some (dbm, .error m)
  | .ok dbm1 =>
    if noResult then some (dbm1, .ok .nullv)
    else
      match DatabaseManager.queryM E dbm1 updateChangesSql [] with
      | .error m => some (dbm1, .error m)
      | .ok (dbm2, _, rs) =>
        match extractUpdateChanges rs with
        | none => none
        | some changes => some (dbm2, .ok (.intv changes))

/-- `SqflitePlugin::query` (current revision): run the manager query and build
the response for the current `queryAsMapList` option. -/
def queryOp {σ : Type} (E : SqlEngine σ) (queryAsMapList : Bool)
    (dbm : DatabaseManager σ) (sql : String) (args : List EncodableValue) :
    DatabaseManager σ × Except String EncodableValue :=
  match DatabaseManager.queryM E dbm sql args with
  | .error m => (dbm, .error m)
  | .ok (dbm', cols, rs) => (dbm', .ok (queryResponse queryAsMapList cols rs))

/-- `SqflitePlugin::OnQueryCall` (current revision): unknown handle reports
the database-closed condition; a database error goes through
`handleQueryException` which attaches the sql text and arguments. -/
def onQueryCall {σ : Type} (E : SqlEngine σ) (st : PluginState σ) (id : Int)
    (sql : String) (args : List EncodableValue) : PluginState σ × MethodReply :=
  match lookupIn st.databaseMap id with
  | none => (st, .error (.databaseClosed id))
  | some dbm =>
    match queryOp E st.queryAsMapList dbm sql args with
    | (dbm', .error m) =>
      ({ st with databaseMap := mapUpdate st.databaseMap id dbm' },
        .error (.queryError m sql args))
    | (dbm', .ok v) =>
      ({ st with databaseMap := mapUpdate st.databaseMap id dbm' }, .success (some v))

/-- `SqflitePlugin::OnInsertCall` (current revision). -/
def onInsertCall {σ : Type} (E : SqlEngine σ) (st : PluginState σ) (id : Int)
    (sql : String) (args : List EncodableValue) (noResult : Bool) :
    Option (PluginState σ × MethodReply) :=
  match lookupIn st.databaseMap id with
  | none => some (st, .error (.databaseClosed id))
  | some dbm =>
    match insertOp E dbm sql args noResult with
    | none => none
    | some (dbm', .error m) =>
      some ({ st with databaseMap := mapUpdate st.databaseMap id dbm' },
        .error (.queryError m sql args))
    | some (dbm', .ok v) =>
      some ({ st with databaseMap := mapUpdate st.databaseMap id dbm' },
        .success (some v))

/-- `SqflitePlugin::OnUpdateCall` (current revision). -/
def onUpdateCall {σ : Type} (E : SqlEngine σ) (st : PluginState σ) (id : Int)
    (sql : String) (args : List EncodableValue) (noResult : Bool) :
    Option (PluginState σ × MethodReply) :=
  match lookupIn st.databaseMap id with
  | none => some (st, .error (.databaseClosed id))
  | some dbm =>
    match updateOp E dbm sql args noResult with
    | none => none
    | some (dbm', .error m) =>
      some ({ st with databaseMap := mapUpdate st.databaseMap id dbm' },
        .error (.queryError m sql args))
    | some (dbm', .ok v) =>
      some ({ st with databaseMap := mapUpdate st.databaseMap id dbm' },
        .success (some v))

/-- `SqflitePlugin::OnDeleteDatabase` (current revision): when the path has a
tracked single-instance id whose manager is present with a live connection,
erase both registry entries; then remove the file (outside this model) and
reply success. -/
def onDeleteDatabase {σ : Type} (st : PluginState σ) (path : String) :
    PluginState σ × MethodReply :=
  match lookupIn st.singleInstancesByPath path with
  | none => (st, .success none)
  | some existingDatabaseId =>
    match lookupIn st.databaseMap existingDatabaseId with
    | none => (st, .success none)
    | some dbm =>
      if dbm.sqliteDatabase.isSome then
        ({ st with
            databaseMap := mapErase st.databaseMap existingDatabaseId,
            singleInstancesByPath := mapErase st.singleInstancesByPath path },
          .success none)
      else (st, .success none)

/-- `SqflitePlugin::OnOptionsCall` (current revision): stores the
`queryAsMapList` option. -/
def onOptionsCall {σ : Type} (st : PluginState σ) (queryAsMapList : Bool) :
    PluginState σ × MethodReply :=
  ({ st with queryAsMapList := queryAsMapList }, .success none)

/-- One operation of a batch call: its method name, sql text and arguments. -/
structure BatchOp where
  method : String
  sql : String
  args : List EncodableValue

/-- The method names `OnBatchCall` dispatches on. -/
def isSupportedBatchMethod (m : String) : Bool :=
  m = "execute" || m = "insert" || m = "query" || m = "update"

/-- `SqflitePlugin::buildSuccessBatchOperationResult`: wraps a per-operation
success value under the `result` key. -/
def successEntry (v : EncodableValue) : EncodableValue :=
  .mapv [(.strv "result", v)]

/-- `SqflitePlugin::buildErrorBatchOperationResult`: wraps a per-operation
error marker (code, message, and the offending sql and arguments) under the
`error` key. -/
def errorEntry (message sql : String) (args : List EncodableValue) : EncodableValue :=
  .mapv [(.strv "error", .mapv
    [(.strv "errorCode", .strv "sqlite_error"),
     (.strv "errorMessage", .strv message),
     (.strv "errorData", .mapv
       [(.strv "sql", .strv sql), (.strv "arguments", .listv args)])])]

/-- Outcome of dispatching a single batch operation. -/
inductive OpOutcome (σ : Type) where
  | okOp (dbm : DatabaseManager σ) (value : EncodableValue)
  | errOp (dbm : DatabaseManager σ) (message : String)
  | unsupported
  | undef

/-- One arm of the `OnBatchCall` dispatch: run the operation's method against
the manager. An unknown method is `unsupported`; `undef` is the undefined
changes-extraction of insert/update. -/
def batchOpStep {σ : Type} (E : SqlEngine σ) (queryAsMapList noResult : Bool)
    (dbm : DatabaseManager σ) (op : BatchOp) : OpOutcome σ :=
  if op.method = "execute" then
    match DatabaseManager.executeM E dbm op.sql op.args with
    | .ok dbm' => .okOp dbm' .nullv
    | .error m => .errOp dbm m
  else if op.method = "insert" then
    match insertOp E dbm op.sql op.args noResult with
    | none => .undef
    | some (dbm', .ok v) => .okOp dbm' v
    | some (dbm', .error m) => .errOp dbm' m
  else if op.method = "query" then
    match queryOp E queryAsMapList dbm op.sql op.args with
    | (dbm', .ok v) => .okOp dbm' v
    | (dbm', .error m) => .errOp dbm' m
  else if op.method = "update" then
    match updateOp E dbm op.sql op.args noResult with
    | none => .undef
    | some (dbm', .ok v) => .okOp dbm' v
    | some (dbm', .error m) => .errOp dbm' m
  else .unsupported

/-- `results.push_back` guarded by `if (!noResult)`. -/
def pushEntry (noResult : Bool) (acc : List EncodableValue) (e : EncodableValue) :
    List EncodableValue :=
  if noResult then acc else acc ++ [e]

/-- The state of the `OnBatchCall` loop: still running with the accumulated
results, or halted with the call's final outcome (`none` on undefined
behaviour). -/
inductive LoopState (σ : Type) where
  | running (dbm : DatabaseManager σ) (acc : List EncodableValue)
  | halted (res : Option (DatabaseManager σ × MethodReply))

/-- The `for (auto item : operations)` loop of `OnBatchCall`: success pushes a
success entry; a database error either pushes an error entry
(`continueOnError`) or replies through `handleQueryException` and returns; an
unknown method replies not-implemented and returns. -/
def stepMany {σ : Type} (E : SqlEngine σ) (queryAsMapList continueOnError noResult : Bool) :
    DatabaseManager σ → List BatchOp → List EncodableValue → LoopState σ
  | dbm, [], acc => .running dbm acc
  | dbm, op :: rest, acc =>
    match batchOpStep E queryAsMapList noResult dbm op with
    | .undef => .halted none
    | .unsupported => .halted (some (dbm, .notImplemented))
    | .okOp dbm' v =>
      stepMany E queryAsMapList continueOnError noResult dbm' rest
        (pushEntry noResult acc (successEntry v))
    | .errOp dbm' m =>
      if continueOnError then
        stepMany E queryAsMapList continueOnError noResult dbm' rest
          (pushEntry noResult acc (errorEntry m op.sql op.args))
      else .halted (some (dbm', .error (.queryError m op.sql op.args)))

/-- `SqflitePlugin::OnBatchCall` (current revision): unknown handle reports
the database-closed condition; otherwise the loop runs and, when it finishes,
the call replies success — with the accumulated per-operation results unless
`noResult` is set. -/
def onBatchCall {σ : Type} (E : SqlEngine σ) (st : PluginState σ) (id : Int)
    (operations : List BatchOp) (continueOnError noResult : Bool) :
    Option (PluginState σ × MethodReply) :=
  match lookupIn st.databaseMap id with
  | none => some (st, .error (.databaseClosed id))
  | some dbm =>
    match stepMany E st.queryAsMapList continueOnError noResult dbm operations [] with
    | .halted none => none
    | .halted (some (dbm', reply)) =>
      some ({ st with databaseMap := mapUpdate st.databaseMap id dbm' }, reply)
    | .running dbm' acc =>
      some ({ st with databaseMap := mapUpdate st.databaseMap id dbm' },
        .success (if noResult then none else some (.listv acc)))

/-- A method-channel call handled by `SqflitePlugin::HandleMethodCall`. -/
inductive PluginCall where
  | openDatabase (path : String) (readOnly singleInstance : Bool)
  | closeDatabase (id : Int)
  | deleteDatabase (path : String)
  | options (queryAsMapList : Bool)
  | executeSql (id : Int) (sql : String) (args : List EncodableValue)
  | querySql (id : Int) (sql : String) (args : List EncodableValue)
  | insertSql (id : Int) (sql : String) (args : List EncodableValue) (noResult : Bool)
  | updateSql (id : Int) (sql : String) (args : List EncodableValue) (noResult : Bool)
  | batchCall (id : Int) (operations : List BatchOp) (continueOnError noResult : Bool)

/-- `SqflitePlugin::HandleMethodCall` dispatch over the registry state
(`none` models the undefined changes-extraction of insert/update). -/
def runCall {σ : Type} (E : SqlEngine σ) (st : PluginState σ) :
    PluginCall → Option (PluginState σ × MethodReply)
  | .openDatabase path readOnly singleInstance =>
    some (onOpenDatabaseCall E st path readOnly singleInstance)
  | .closeDatabase id => some (onCloseDatabaseCall st id)
  | .deleteDatabase path => some (onDeleteDatabase st path)
  | .options q => some (onOptionsCall st q)
  | .executeSql id sql args => some (onExecuteCall E st id sql args)
  | .querySql id sql args => some (onQueryCall E st id sql args)
  | .insertSql id sql args noResult => onInsertCall E st id sql args noResult
  | .updateSql id sql args noResult => onUpdateCall E st id sql args noResult
  | .batchCall id operations continueOnError noResult =>
    onBatchCall E st id operations continueOnError noResult

/-! Concrete engines and states used to evaluate the theorems below on
concrete inputs. -/

/-- A deterministic engine over unit connection state: `BAD` statements fail,
the insert follow-up query reports one changed row with rowid `7`, and the
update follow-up query reports `2` changed rows. -/
def toyEngine : SqlEngine Unit where
  openRW := fun p => if p = "/bad" then .error "cannot open" else .ok ()
  openRO := fun p => if p = "/bad" then .error "cannot open" else .ok ()
  execSql := fun _ sql _ => if sql = "BAD" then .error "bad sql" else .ok ()
  runQuery := fun _ sql _ =>
    if sql = "BAD" then .error "bad query"
    else if sql = insertChangesSql then
      .ok ((), ["changes()", "last_insert_rowid()"], [[.intVal 1, .intVal 7]])
    else if sql = updateChangesSql then .ok ((), ["changes()"], [[.intVal 2]])
    else .ok ((), ["a"], [[.intVal 5]])

/-- An engine whose insert follow-up query reports zero changed rows. -/
def zeroChangesEngine : SqlEngine Unit where
  openRW := fun _ => .ok ()
  openRO := fun _ => .ok ()
  execSql := fun _ _ _ => .ok ()
  runQuery := fun _ _ _ => .ok ((), ["changes()", "last_insert_rowid()"], [[.intVal 0, .intVal 0]])

/-- A registered manager over unit connection state. -/
def unitDbm : DatabaseManager Unit :=
  { path := "/db", id := 1, singleInstance := true, logLevel := 0, sqliteDatabase := some () }

/-- A registry state holding `unitDbm` under handle `1` with its
single-instance path entry. -/
def witnessState : PluginState Unit :=
  { singleInstancesByPath := [("/db", 1)], databaseMap := [(1, unitDbm)],
    queryAsMapList := false, databaseId := 1 }

/-! Claims. -/

/-- C1: an `open(path, readOnly, singleInstance=true)` call on a path whose
registered single-instance handle still has a live native connection replies
with that same handle and the recovered marker, leaves the registry state
(both maps and the id allocator) unchanged, and opens no new native
connection. -/
theorem open_recovers_single_instance {σ : Type} (E : SqlEngine σ) (st : PluginState σ)
    (path : String) (readOnly : Bool) (id : Int) (dbm : DatabaseManager σ)
    (hmem : isInMemoryPath path = false)
    (hpath : lookupIn st.singleInstancesByPath path = some id)
    (hid : id ≠ 0)
    (hdb : lookupIn st.databaseMap id = some dbm)
    (hlive : dbm.sqliteDatabase.isSome = true) :
    onOpenDatabaseCall E st path readOnly true =
      (st, .success (some (makeOpenResult id true))) := by
  have hfind : findRecoverableId st path = some id := by
    simp [findRecoverableId, hpath, hid, hdb, hlive]
  simp [onOpenDatabaseCall, hmem, hfind]

theorem open_recovers_single_instance_witness :
    onOpenDatabaseCall toyEngine witnessState "/db" false true =
      (witnessState, .success (some (makeOpenResult 1 true))) :=
  open_recovers_single_instance toyEngine witnessState "/db" false 1 unitDbm
    rfl rfl (by decide) rfl rfl

/-- C2: the legacy `OnOpenDatabaseCall` revision (the second document in the
source file, mode dispatch at its lines 600–607) calls `open()` — the
read-write open — when `readOnly` is true and `openReadOnly()` when it is
false, the opposite of what its own log messages state and of the current
revision's dispatch (lines 1266–1272), which matches the claim. -/
theorem legacy_open_mode_swapped :
    legacyOpenModeDispatch true = OpenMode.readWrite ∧
    legacyOpenModeDispatch false = OpenMode.readOnly ∧
    openModeDispatch true = OpenMode.readOnly ∧
    openModeDispatch false = OpenMode.readWrite := by decide

/-- C9: an empty path is classified as in-memory exactly like the `:memory:`
sentinel, so an open call on it behaves identically with `singleInstance`
true or false, and never creates a path-map entry. -/
theorem empty_path_is_in_memory {σ : Type} (E : SqlEngine σ) (st : PluginState σ)
    (readOnly : Bool) :
    isInMemoryPath "" = true ∧
    isInMemoryPath ":memory:" = true ∧
    onOpenDatabaseCall E st "" readOnly true = onOpenDatabaseCall E st "" readOnly false ∧
    (onOpenDatabaseCall E st "" readOnly true).1.singleInstancesByPath =
      st.singleInstancesByPath := by
  have h0 : isInMemoryPath "" = true := rfl
  refine ⟨rfl, by decide, ?_, ?_⟩
  · simp [onOpenDatabaseCall, h0]
  · simp only [onOpenDatabaseCall, h0]
    cases h : engineOpen E (openModeDispatch readOnly) "" <;> simp [h]

/-- The empty registry state. -/
def emptyState : PluginState Unit :=
  { singleInstancesByPath := [], databaseMap := [], queryAsMapList := false, databaseId := 0 }

/-- C4: closing a registered handle removes its handle-to-manager entry (and,
for a single-instance manager, its path entry) and replies success, after
which execute and query on that handle report the database-closed condition
and leave the state untouched (no native call is made). -/
theorem close_removes_handle {σ : Type} (E : SqlEngine σ) (st : PluginState σ)
    (id : Int) (dbm : DatabaseManager σ)
    (h : lookupIn st.databaseMap id = some dbm) :
    onCloseDatabaseCall st id =
      ({ st with
          databaseMap := mapErase st.databaseMap id,
          singleInstancesByPath :=
            if dbm.singleInstance then mapErase st.singleInstancesByPath dbm.path
            else st.singleInstancesByPath },
        .success none) ∧
    lookupIn (onCloseDatabaseCall st id).1.databaseMap id = none ∧
    (∀ sql args, onExecuteCall E (onCloseDatabaseCall st id).1 id sql args =
      ((onCloseDatabaseCall st id).1, .error (.databaseClosed id))) ∧
    (∀ sql args, onQueryCall E (onCloseDatabaseCall st id).1 id sql args =
      ((onCloseDatabaseCall st id).1, .error (.databaseClosed id))) := by
  have h1 : onCloseDatabaseCall st id =
      ({ st with
          databaseMap := mapErase st.databaseMap id,
          singleInstancesByPath :=
            if dbm.singleInstance then mapErase st.singleInstancesByPath dbm.path
            else st.singleInstancesByPath },
        .success none) := by
    simp [onCloseDatabaseCall, h]
  have h2 : lookupIn (onCloseDatabaseCall st id).1.databaseMap id = none := by
    rw [h1]
    simpa using lookupIn_mapErase_self st.databaseMap id
  refine ⟨h1, h2, ?_, ?_⟩ <;> intro sql args <;> simp [onExecuteCall, onQueryCall, h2]

theorem close_removes_handle_witness :
    onCloseDatabaseCall witnessState 1 =
      ({ witnessState with
          databaseMap := mapErase witnessState.databaseMap 1,
          singleInstancesByPath :=
            if unitDbm.singleInstance then mapErase witnessState.singleInstancesByPath unitDbm.path
            else witnessState.singleInstancesByPath },
        .success none) ∧
    lookupIn (onCloseDatabaseCall witnessState 1).1.databaseMap 1 = none ∧
    onExecuteCall toyEngine (onCloseDatabaseCall witnessState 1).1 1 "SELECT 1" [] =
      ((onCloseDatabaseCall witnessState 1).1, .error (.databaseClosed 1)) ∧
    onQueryCall toyEngine (onCloseDatabaseCall witnessState 1).1 1 "SELECT 1" [] =
      ((onCloseDatabaseCall witnessState 1).1, .error (.databaseClosed 1)) := by
  obtain ⟨h1, h2, h3, h4⟩ := close_removes_handle toyEngine witnessState 1 unitDbm rfl
  exact ⟨h1, h2, h3 "SELECT 1" [], h4 "SELECT 1" []⟩

/-- C6: when the single-instance recovery path is not taken and the native
open fails, the open call registers nothing: the registry state is exactly the
old state with only the handle counter advanced, and the open-failed error is
surfaced with the path. -/
theorem open_failure_registers_nothing {σ : Type} (E : SqlEngine σ) (st : PluginState σ)
    (path : String) (readOnly singleInstance : Bool) (msg : String)
    (hno : (if singleInstance && !isInMemoryPath path then findRecoverableId st path
            else none) = none)
    (hfail : engineOpen E (openModeDispatch readOnly) path = .error msg) :
    onOpenDatabaseCall E st path readOnly singleInstance =
      ({ st with databaseId := st.databaseId + 1 }, .error (.openFailed path)) := by
  simp only [onOpenDatabaseCall]
  rw [hno]
  simp [hfail]

theorem open_failure_registers_nothing_witness :
    onOpenDatabaseCall toyEngine emptyState "/bad" false true =
      ({ emptyState with databaseId := emptyState.databaseId + 1 },
        .error (.openFailed "/bad")) :=
  open_failure_registers_nothing toyEngine emptyState "/bad" false true "cannot open"
    rfl rfl

/-- C8: every execute, query, insert, update or batch call whose handle lookup
finds no manager replies with the database-closed condition (carrying the
handle), a condition distinct from the database-error, query-error and
open-failed conditions. -/
theorem missing_handle_reports_closed {σ : Type} (E : SqlEngine σ) (st : PluginState σ)
    (id : Int) (sql : String) (args : List EncodableValue) (ops : List BatchOp)
    (continueOnError noResult noRes : Bool)
    (h : lookupIn st.databaseMap id = none) :
    (onExecuteCall E st id sql args).2 = .error (.databaseClosed id) ∧
    (onQueryCall E st id sql args).2 = .error (.databaseClosed id) ∧
    onInsertCall E st id sql args noRes = some (st, .error (.databaseClosed id)) ∧
    onUpdateCall E st id sql args noRes = some (st, .error (.databaseClosed id)) ∧
    onBatchCall E st id ops continueOnError noResult = some (st, .error (.databaseClosed id)) ∧
    (∀ m, PluginError.databaseClosed id ≠ .databaseError m) ∧
    (∀ m s p, PluginError.databaseClosed id ≠ .queryError m s p) ∧
    (∀ p, PluginError.databaseClosed id ≠ .openFailed p) := by
  refine ⟨?_, ?_, ?_, ?_, ?_, ?_, ?_, ?_⟩ <;> intros <;>
    simp [onExecuteCall, onQueryCall, onInsertCall, onUpdateCall, onBatchCall, h]

theorem missing_handle_reports_closed_witness :
    (onExecuteCall toyEngine emptyState 5 "SELECT 1" []).2 = .error (.databaseClosed 5) ∧
    (onQueryCall toyEngine emptyState 5 "SELECT 1" []).2 = .error (.databaseClosed 5) ∧
    onInsertCall toyEngine emptyState 5 "SELECT 1" [] false =
      some (emptyState, .error (.databaseClosed 5)) ∧
    onUpdateCall toyEngine emptyState 5 "SELECT 1" [] false =
      some (emptyState, .error (.databaseClosed 5)) ∧
    onBatchCall toyEngine emptyState 5 [] false false =
      some (emptyState, .error (.databaseClosed 5)) ∧
    PluginError.databaseClosed 5 ≠ .databaseError "bad sql" := by
  obtain ⟨h1, h2, h3, h4, h5, h6, -, -⟩ :=
    missing_handle_reports_closed toyEngine emptyState 5 "SELECT 1" [] [] false false false rfl
  exact ⟨h1, h2, h3, h4, h5, h6 "bad sql"⟩

/-- C5 (amended): an insert whose execute succeeds and whose
`SELECT changes(), last_insert_rowid();` follow-up reports `changes` and
`lastId` replies with the null value (an absent id, never the integer `0`)
when `changes = 0`, and when `changes > 0` with the last-inserted row id
narrowed through the C++ 32-bit `int lastId` variable — equal to the row id
itself whenever it fits the 32-bit range. -/
theorem insert_zero_changes_no_id {σ : Type} (E : SqlEngine σ) (st : PluginState σ)
    (id : Int) (dbm dbm1 dbm2 : DatabaseManager σ) (sql : String)
    (args : List EncodableValue) (cols : List String) (changes lastId : Int)
    (h : lookupIn st.databaseMap id = some dbm)
    (hexec : DatabaseManager.executeM E dbm sql args = .ok dbm1)
    (hquery : DatabaseManager.queryM E dbm1 insertChangesSql [] =
      .ok (dbm2, cols, [[.intVal changes, .intVal lastId]])) :
    (changes = 0 → onInsertCall E st id sql args false =
      some ({ st with databaseMap := mapUpdate st.databaseMap id dbm2 },
        .success (some .nullv))) ∧
    (0 < changes → onInsertCall E st id sql args false =
      some ({ st with databaseMap := mapUpdate st.databaseMap id dbm2 },
        .success (some (.intv (toInt32 lastId))))) ∧
    (∀ i : Int, (MethodReply.success (some .nullv)) ≠ .success (some (.intv i))) ∧
    (-2147483648 ≤ lastId → lastId < 2147483648 → toInt32 lastId = lastId) := by
  refine ⟨?_, ?_, ?_, ?_⟩
  · intro hc
    subst hc
    simp [onInsertCall, insertOp, h, hexec, hquery, extractInsertChanges, asInt64]
  · intro hc
    have hch : extractInsertChanges [[.intVal changes, .intVal lastId]] =
        some (changes, toInt32 lastId) := by
      simp [extractInsertChanges, asInt64, hc]
    have hne : ¬ changes = 0 := by omega
    simp [onInsertCall, insertOp, h, hexec, hquery, hch, hne]
  · intro i hi
    simp at hi
  · intro hlo hhi
    unfold toInt32
    omega

theorem insert_zero_changes_no_id_witness :
    onInsertCall zeroChangesEngine witnessState 1 "INSERT INTO t VALUES (1)" [] false =
      some ({ witnessState with databaseMap := mapUpdate witnessState.databaseMap 1 unitDbm },
        .success (some .nullv)) :=
  (insert_zero_changes_no_id zeroChangesEngine witnessState 1 unitDbm unitDbm unitDbm
    "INSERT INTO t VALUES (1)" [] ["changes()", "last_insert_rowid()"] 0 0
    rfl rfl rfl).1 rfl

/-- An engine whose insert follow-up query reports one changed row with the
row id `2^31`, just outside the 32-bit int range. -/
def bigRowidEngine : SqlEngine Unit where
  openRW := fun _ => .ok ()
  openRO := fun _ => .ok ()
  execSql := fun _ _ _ => .ok ()
  runQuery := fun _ _ _ =>
    .ok ((), ["changes()", "last_insert_rowid()"], [[.intVal 1, .intVal 2147483648]])

/-- C5 counterexample: with the engine reporting `changes = 1` and
`last_insert_rowid() = 2^31`, the insert call replies with the 32-bit
truncated value `-2^31`, not the engine-reported last-inserted row identifier
`2^31` — so the original claim fails at this input. -/
theorem insert_large_rowid_truncates :
    onInsertCall bigRowidEngine witnessState 1 "INSERT INTO t VALUES (1)" [] false =
      some ({ witnessState with databaseMap := mapUpdate witnessState.databaseMap 1 unitDbm },
        .success (some (.intv (-2147483648)))) ∧
    (EncodableValue.intv (-2147483648)) ≠ .intv 2147483648 := by
  constructor
  · rfl
  · intro hi
    injection hi with hv
    exact absurd hv (by decide)

/-- Specification-side batch run for `continueOnError`: every operation is
executed in input order against the evolving manager state and yields exactly
one marker — a success entry or an error entry — per operation. -/
def markerRun {σ : Type} (E : SqlEngine σ) (queryAsMapList : Bool) :
    DatabaseManager σ → List BatchOp → Option (DatabaseManager σ × List EncodableValue)
  | dbm, [] => some (dbm, [])
  | dbm, op :: rest =>
    match batchOpStep E queryAsMapList false dbm op with
    | .okOp dbm' v =>
      (markerRun E queryAsMapList dbm' rest).map fun p => (p.1, successEntry v :: p.2)
    | .errOp dbm' m =>
      (markerRun E queryAsMapList dbm' rest).map fun p => (p.1, errorEntry m op.sql op.args :: p.2)
    | .unsupported => none
    | .undef => none

theorem stepMany_append {σ : Type} (E : SqlEngine σ) (q c n : Bool)
    (pre rest : List BatchOp) :
    ∀ (dbm : DatabaseManager σ) (acc : List EncodableValue),
    stepMany E q c n dbm (pre ++ rest) acc =
      match stepMany E q c n dbm pre acc with
      | .running dbm' acc' => stepMany E q c n dbm' rest acc'
      | .halted res => .halted res := by
  induction pre with
  | nil => intro dbm acc; simp [stepMany]
  | cons op pre ih =>
    intro dbm acc
    simp only [List.cons_append, stepMany]
    cases hstep : batchOpStep E q n dbm op with
    | okOp dbm' v => exact ih dbm' (pushEntry n acc (successEntry v))
    | errOp dbm' m =>
      cases c with
      | true => simpa using ih dbm' (pushEntry n acc (errorEntry m op.sql op.args))
      | false => simp
    | unsupported => rfl
    | undef => rfl

theorem markerRun_stepMany {σ : Type} (E : SqlEngine σ) (q : Bool) (ops : List BatchOp) :
    ∀ (dbm dbmF : DatabaseManager σ) (markers acc : List EncodableValue),
    markerRun E q dbm ops = some (dbmF, markers) →
    stepMany E q true false dbm ops acc = .running dbmF (acc ++ markers) := by
  induction ops with
  | nil =>
    intro dbm dbmF markers acc h
    have h' : some (dbm, ([] : List EncodableValue)) = some (dbmF, markers) := h
    simp only [Option.some.injEq, Prod.mk.injEq] at h'
    obtain ⟨h1, h2⟩ := h'
    subst h1; subst h2
    simp [stepMany]
  | cons op rest ih =>
    intro dbm dbmF markers acc h
    cases hstep : batchOpStep E q false dbm op with
    | okOp dbm' v =>
      rw [markerRun, hstep] at h
      have h' : Option.map (fun p => (p.1, successEntry v :: p.2))
          (markerRun E q dbm' rest) = some (dbmF, markers) := h
      rw [Option.map_eq_some'] at h'
      obtain ⟨p, hm, hp⟩ := h'
      obtain ⟨h1, h2⟩ := Prod.mk.injEq .. |>.mp hp
      subst h1; subst h2
      have := ih dbm' p.1 p.2 (pushEntry false acc (successEntry v)) hm
      calc stepMany E q true false dbm (op :: rest) acc
          = stepMany E q true false dbm' rest (pushEntry false acc (successEntry v)) := by
            simp only [stepMany, hstep]
        _ = .running p.1 (acc ++ successEntry v :: p.2) := by
            rw [this]; simp [pushEntry]
    | errOp dbm' m =>
      rw [markerRun, hstep] at h
      have h' : Option.map (fun p => (p.1, errorEntry m op.sql op.args :: p.2))
          (markerRun E q dbm' rest) = some (dbmF, markers) := h
      rw [Option.map_eq_some'] at h'
      obtain ⟨p, hm, hp⟩ := h'
      obtain ⟨h1, h2⟩ := Prod.mk.injEq .. |>.mp hp
      subst h1; subst h2
      have := ih dbm' p.1 p.2 (pushEntry false acc (errorEntry m op.sql op.args)) hm
      calc stepMany E q true false dbm (op :: rest) acc
          = stepMany E q true false dbm' rest
              (pushEntry false acc (errorEntry m op.sql op.args)) := by
            simp only [stepMany, hstep]; rfl
        _ = .running p.1 (acc ++ errorEntry m op.sql op.args :: p.2) := by
            rw [this]; simp [pushEntry]
    | unsupported =>
      rw [markerRun, hstep] at h
      have h' : (none : Option (DatabaseManager σ × List EncodableValue)) =
          some (dbmF, markers) := h
      exact absurd h' (by simp)
    | undef =>
      rw [markerRun, hstep] at h
      have h' : (none : Option (DatabaseManager σ × List EncodableValue)) =
          some (dbmF, markers) := h
      exact absurd h' (by simp)

theorem markerRun_length {σ : Type} (E : SqlEngine σ) (q : Bool) (ops : List BatchOp) :
    ∀ (dbm dbmF : DatabaseManager σ) (markers : List EncodableValue),
    markerRun E q dbm ops = some (dbmF, markers) → markers.length = ops.length := by
  induction ops with
  | nil =>
    intro dbm dbmF markers h
    have h' : some (dbm, ([] : List EncodableValue)) = some (dbmF, markers) := h
    simp only [Option.some.injEq, Prod.mk.injEq] at h'
    obtain ⟨-, h2⟩ := h'
    subst h2
    rfl
  | cons op rest ih =>
    intro dbm dbmF markers h
    cases hstep : batchOpStep E q false dbm op with
    | okOp dbm' v =>
      rw [markerRun, hstep] at h
      have h' : Option.map (fun p => (p.1, successEntry v :: p.2))
          (markerRun E q dbm' rest) = some (dbmF, markers) := h
      rw [Option.map_eq_some'] at h'
      obtain ⟨p, hm, hp⟩ := h'
      obtain ⟨-, h2⟩ := Prod.mk.injEq .. |>.mp hp
      subst h2
      simpa using ih dbm' p.1 p.2 hm
    | errOp dbm' m =>
      rw [markerRun, hstep] at h
      have h' : Option.map (fun p => (p.1, errorEntry m op.sql op.args :: p.2))
          (markerRun E q dbm' rest) = some (dbmF, markers) := h
      rw [Option.map_eq_some'] at h'
      obtain ⟨p, hm, hp⟩ := h'
      obtain ⟨-, h2⟩ := Prod.mk.injEq .. |>.mp hp
      subst h2
      simpa using ih dbm' p.1 p.2 hm
    | unsupported =>
      rw [markerRun, hstep] at h
      have h' : (none : Option (DatabaseManager σ × List EncodableValue)) =
          some (dbmF, markers) := h
      exact absurd h' (by simp)
    | undef =>
      rw [markerRun, hstep] at h
      have h' : (none : Option (DatabaseManager σ × List EncodableValue)) =
          some (dbmF, markers) := h
      exact absurd h' (by simp)

/-- Specification-side batch run for `continueOnError` with `noResult`: every
operation is executed in input order against the evolving manager state; no
result entries are collected. -/
def noResultRun {σ : Type} (E : SqlEngine σ) (queryAsMapList : Bool) :
    DatabaseManager σ → List BatchOp → Option (DatabaseManager σ)
  | dbm, [] => some dbm
  | dbm, op :: rest =>
    match batchOpStep E queryAsMapList true dbm op with
    | .okOp dbm' _ => noResultRun E queryAsMapList dbm' rest
    | .errOp dbm' _ => noResultRun E queryAsMapList dbm' rest
    | .unsupported => none
    | .undef => none

theorem noResultRun_stepMany {σ : Type} (E : SqlEngine σ) (q : Bool) (ops : List BatchOp) :
    ∀ (dbm dbmF : DatabaseManager σ) (acc : List EncodableValue),
    noResultRun E q dbm ops = some dbmF →
    stepMany E q true true dbm ops acc = .running dbmF acc := by
  induction ops with
  | nil =>
    intro dbm dbmF acc h
    have h' : some dbm = some dbmF := h
    injection h' with h1
    subst h1
    simp [stepMany]
  | cons op rest ih =>
    intro dbm dbmF acc h
    cases hstep : batchOpStep E q true dbm op with
    | okOp dbm' v =>
      rw [noResultRun, hstep] at h
      have h' : noResultRun E q dbm' rest = some dbmF := h
      calc stepMany E q true true dbm (op :: rest) acc
          = stepMany E q true true dbm' rest (pushEntry true acc (successEntry v)) := by
            simp only [stepMany, hstep]
        _ = .running dbmF acc := ih dbm' dbmF acc h'
    | errOp dbm' m =>
      rw [noResultRun, hstep] at h
      have h' : noResultRun E q dbm' rest = some dbmF := h
      calc stepMany E q true true dbm (op :: rest) acc
          = stepMany E q true true dbm' rest
              (pushEntry true acc (errorEntry m op.sql op.args)) := by
            simp only [stepMany, hstep]; rfl
        _ = .running dbmF acc := ih dbm' dbmF acc h'
    | unsupported =>
      rw [noResultRun, hstep] at h
      have h' : (none : Option (DatabaseManager σ)) = some dbmF := h
      exact absurd h' (by simp)
    | undef =>
      rw [noResultRun, hstep] at h
      have h' : (none : Option (DatabaseManager σ)) = some dbmF := h
      exact absurd h' (by simp)

/-- C3: for a batch on a valid handle, with `continueOnError=false` the first
failing operation makes the whole call reply with that operation's error (its
message, sql and arguments) and the operations after it are never executed
(the outcome does not depend on them); with `continueOnError=true` every
operation is executed in input order — with `noResult=false` the
specification run `markerRun`, whose reply carries exactly one
success-or-error marker per operation in input order, and with
`noResult=true` the specification run `noResultRun`, whose final manager
state is kept in the registry while the reply carries no value. -/
theorem batch_error_semantics {σ : Type} (E : SqlEngine σ) (st : PluginState σ)
    (id : Int) (dbm : DatabaseManager σ) (noResult : Bool)
    (pre : List BatchOp) (bad : BatchOp) (post : List BatchOp)
    (dbmA : DatabaseManager σ) (accA : List EncodableValue)
    (dbmB : DatabaseManager σ) (m : String)
    (ops : List BatchOp) (dbmF dbmG : DatabaseManager σ) (markers : List EncodableValue)
    (hdb : lookupIn st.databaseMap id = some dbm) :
    ((stepMany E st.queryAsMapList false noResult dbm pre [] = .running dbmA accA) →
     (batchOpStep E st.queryAsMapList noResult dbmA bad = .errOp dbmB m) →
     onBatchCall E st id (pre ++ bad :: post) false noResult =
       some ({ st with databaseMap := mapUpdate st.databaseMap id dbmB },
         .error (.queryError m bad.sql bad.args))) ∧
    ((markerRun E st.queryAsMapList dbm ops = some (dbmF, markers)) →
     (onBatchCall E st id ops true false =
       some ({ st with databaseMap := mapUpdate st.databaseMap id dbmF },
         .success (some (.listv markers))) ∧
      markers.length = ops.length)) ∧
    ((noResultRun E st.queryAsMapList dbm ops = some dbmG) →
     onBatchCall E st id ops true true =
       some ({ st with databaseMap := mapUpdate st.databaseMap id dbmG },
         .success none)) := by
  refine ⟨?_, ?_, ?_⟩
  · intro hpre hbad
    have hloop : stepMany E st.queryAsMapList false noResult dbm (pre ++ bad :: post) [] =
        .halted (some (dbmB, .error (.queryError m bad.sql bad.args))) := by
      rw [stepMany_append E st.queryAsMapList false noResult pre (bad :: post) dbm [], hpre]
      simp only [stepMany, hbad]
      rfl
    simp only [onBatchCall, hdb, hloop]
  · intro hmr
    have hloop := markerRun_stepMany E st.queryAsMapList ops dbm dbmF markers [] hmr
    have hlen := markerRun_length E st.queryAsMapList ops dbm dbmF markers hmr
    refine ⟨?_, hlen⟩
    simp only [onBatchCall, hdb, hloop]
    simp
  · intro hnr
    have hloop := noResultRun_stepMany E st.queryAsMapList ops dbm dbmG [] hnr
    simp only [onBatchCall, hdb, hloop]
    simp

theorem batch_error_semantics_witness :
    onBatchCall toyEngine witnessState 1
      [⟨"execute", "CREATE TABLE t", []⟩, ⟨"execute", "BAD", []⟩,
       ⟨"execute", "CREATE TABLE u", []⟩] false false =
      some ({ witnessState with databaseMap := mapUpdate witnessState.databaseMap 1 unitDbm },
        .error (.queryError "bad sql" "BAD" [])) ∧
    (onBatchCall toyEngine witnessState 1
      [⟨"execute", "CREATE TABLE t", []⟩, ⟨"execute", "BAD", []⟩] true false =
      some ({ witnessState with databaseMap := mapUpdate witnessState.databaseMap 1 unitDbm },
        .success (some (.listv [successEntry .nullv, errorEntry "bad sql" "BAD" []]))) ∧
     ([successEntry .nullv, errorEntry "bad sql" "BAD" []] : List EncodableValue).length =
       ([⟨"execute", "CREATE TABLE t", []⟩, ⟨"execute", "BAD", []⟩] : List BatchOp).length) ∧
    onBatchCall toyEngine witnessState 1
      [⟨"execute", "CREATE TABLE t", []⟩, ⟨"execute", "BAD", []⟩] true true =
      some ({ witnessState with databaseMap := mapUpdate witnessState.databaseMap 1 unitDbm },
        .success none) := by
  obtain ⟨hA, hB, hC⟩ := batch_error_semantics toyEngine witnessState 1 unitDbm false
    [⟨"execute", "CREATE TABLE t", []⟩] ⟨"execute", "BAD", []⟩
    [⟨"execute", "CREATE TABLE u", []⟩] unitDbm [successEntry .nullv] unitDbm "bad sql"
    [⟨"execute", "CREATE TABLE t", []⟩, ⟨"execute", "BAD", []⟩] unitDbm unitDbm
    [successEntry .nullv, errorEntry "bad sql" "BAD" []] rfl
  exact ⟨hA rfl rfl, hB rfl, hC rfl⟩

/-- C10: a batch containing an operation whose method is none of execute,
insert, query or update replies not-implemented at that operation, regardless
of `continueOnError` and of the accumulated results (which are discarded: the
reply carries none of them), while the registry keeps the manager state
produced by the earlier operations and the operations after it are never
executed (the outcome does not depend on them). -/
theorem batch_unsupported_aborts {σ : Type} (E : SqlEngine σ) (st : PluginState σ)
    (id : Int) (dbm : DatabaseManager σ) (continueOnError noResult : Bool)
    (pre : List BatchOp) (bad : BatchOp) (post : List BatchOp)
    (dbm' : DatabaseManager σ) (acc' : List EncodableValue)
    (hdb : lookupIn st.databaseMap id = some dbm)
    (hbad : isSupportedBatchMethod bad.method = false)
    (hpre : stepMany E st.queryAsMapList continueOnError noResult dbm pre [] =
      .running dbm' acc') :
    onBatchCall E st id (pre ++ bad :: post) continueOnError noResult =
      some ({ st with databaseMap := mapUpdate st.databaseMap id dbm' },
        .notImplemented) := by
  simp only [isSupportedBatchMethod, Bool.or_eq_false_iff, decide_eq_false_iff_not] at hbad
  obtain ⟨⟨⟨hm1, hm2⟩, hm3⟩, hm4⟩ := hbad
  have hstep : batchOpStep E st.queryAsMapList noResult dbm' bad = .unsupported := by
    simp [batchOpStep, hm1, hm2, hm3, hm4]
  have hloop : stepMany E st.queryAsMapList continueOnError noResult dbm
      (pre ++ bad :: post) [] = .halted (some (dbm', .notImplemented)) := by
    rw [stepMany_append E st.queryAsMapList continueOnError noResult pre (bad :: post) dbm [],
      hpre]
    simp only [stepMany, hstep]
  simp only [onBatchCall, hdb, hloop]

theorem batch_unsupported_aborts_witness :
    onBatchCall toyEngine witnessState 1
      [⟨"execute", "CREATE TABLE t", []⟩, ⟨"vacuum", "VACUUM", []⟩,
       ⟨"execute", "CREATE TABLE u", []⟩] true false =
      some ({ witnessState with databaseMap := mapUpdate witnessState.databaseMap 1 unitDbm },
        .notImplemented) :=
  batch_unsupported_aborts toyEngine witnessState 1 unitDbm true false
    [⟨"execute", "CREATE TABLE t", []⟩] ⟨"vacuum", "VACUUM", []⟩
    [⟨"execute", "CREATE TABLE u", []⟩] unitDbm [successEntry .nullv]
    rfl (by decide) rfl

theorem onOpen_databaseId {σ : Type} (E : SqlEngine σ) (st : PluginState σ)
    (path : String) (readOnly singleInstance : Bool) :
    (onOpenDatabaseCall E st path readOnly singleInstance).1.databaseId = st.databaseId ∨
    (onOpenDatabaseCall E st path readOnly singleInstance).1.databaseId =
      st.databaseId + 1 := by
  simp only [onOpenDatabaseCall]
  split
  · left; rfl
  · split
    · right; rfl
    · right; rfl

theorem onClose_databaseId {σ : Type} (st : PluginState σ) (id : Int) :
    (onCloseDatabaseCall st id).1.databaseId = st.databaseId := by
  simp only [onCloseDatabaseCall]
  split <;> rfl

theorem onDelete_databaseId {σ : Type} (st : PluginState σ) (path : String) :
    (onDeleteDatabase st path).1.databaseId = st.databaseId := by
  simp only [onDeleteDatabase]
  split
  · rfl
  · split
    · rfl
    · split <;> rfl

theorem onExecute_databaseId {σ : Type} (E : SqlEngine σ) (st : PluginState σ)
    (id : Int) (sql : String) (args : List EncodableValue) :
    (onExecuteCall E st id sql args).1.databaseId = st.databaseId := by
  simp only [onExecuteCall]
  split
  · rfl
  · split <;> rfl

theorem onQuery_databaseId {σ : Type} (E : SqlEngine σ) (st : PluginState σ)
    (id : Int) (sql : String) (args : List EncodableValue) :
    (onQueryCall E st id sql args).1.databaseId = st.databaseId := by
  simp only [onQueryCall]
  split
  · rfl
  · split <;> rfl

theorem onInsert_databaseId {σ : Type} (E : SqlEngine σ) (st : PluginState σ)
    (id : Int) (sql : String) (args : List EncodableValue) (noResult : Bool)
    (st' : PluginState σ) (r : MethodReply)
    (h : onInsertCall E st id sql args noResult = some (st', r)) :
    st'.databaseId = st.databaseId := by
  simp only [onInsertCall] at h
  split at h
  · injection h with h2
    injection h2 with h1 h3
    subst h1
    rfl
  · split at h
    · exact absurd h (by simp)
    · injection h with h2
      injection h2 with h1 h3
      subst h1
      rfl
    · injection h with h2
      injection h2 with h1 h3
      subst h1
      rfl

theorem onUpdate_databaseId {σ : Type} (E : SqlEngine σ) (st : PluginState σ)
    (id : Int) (sql : String) (args : List EncodableValue) (noResult : Bool)
    (st' : PluginState σ) (r : MethodReply)
    (h : onUpdateCall E st id sql args noResult = some (st', r)) :
    st'.databaseId = st.databaseId := by
  simp only [onUpdateCall] at h
  split at h
  · injection h with h2
    injection h2 with h1 h3
    subst h1
    rfl
  · split at h
    · exact absurd h (by simp)
    · injection h with h2
      injection h2 with h1 h3
      subst h1
      rfl
    · injection h with h2
      injection h2 with h1 h3
      subst h1
      rfl

theorem onBatch_databaseId {σ : Type} (E : SqlEngine σ) (st : PluginState σ)
    (id : Int) (operations : List BatchOp) (continueOnError noResult : Bool)
    (st' : PluginState σ) (r : MethodReply)
    (h : onBatchCall E st id operations continueOnError noResult = some (st', r)) :
    st'.databaseId = st.databaseId := by
  simp only [onBatchCall] at h
  split at h
  · injection h with h2
    injection h2 with h1 h3
    subst h1
    rfl
  · split at h
    · exact absurd h (by simp)
    · injection h with h2
      injection h2 with h1 h3
      subst h1
      rfl
    · injection h with h2
      injection h2 with h1 h3
      subst h1
      rfl

theorem runCall_databaseId {σ : Type} (E : SqlEngine σ) (st : PluginState σ)
    (c : PluginCall) (st' : PluginState σ) (r : MethodReply)
    (h : runCall E st c = some (st', r)) :
    st'.databaseId = st.databaseId ∨ st'.databaseId = st.databaseId + 1 := by
  cases c with
  | openDatabase path readOnly singleInstance =>
    simp only [runCall, Option.some.injEq] at h
    have := onOpen_databaseId E st path readOnly singleInstance
    rw [h] at this
    exact this
  | closeDatabase id' =>
    simp only [runCall, Option.some.injEq] at h
    have := onClose_databaseId st id'
    rw [h] at this
    exact Or.inl this
  | deleteDatabase path =>
    simp only [runCall, Option.some.injEq] at h
    have := onDelete_databaseId st path
    rw [h] at this
    exact Or.inl this
  | options q =>
    simp only [runCall, onOptionsCall, Option.some.injEq] at h
    obtain ⟨h1, -⟩ := Prod.mk.injEq .. |>.mp h.symm
    exact Or.inl (by rw [h1])
  | executeSql id' sql args =>
    simp only [runCall, Option.some.injEq] at h
    have := onExecute_databaseId E st id' sql args
    rw [h] at this
    exact Or.inl this
  | querySql id' sql args =>
    simp only [runCall, Option.some.injEq] at h
    have := onQuery_databaseId E st id' sql args
    rw [h] at this
    exact Or.inl this
  | insertSql id' sql args noResult =>
    exact Or.inl (onInsert_databaseId E st id' sql args noResult st' r h)
  | updateSql id' sql args noResult =>
    exact Or.inl (onUpdate_databaseId E st id' sql args noResult st' r h)
  | batchCall id' operations continueOnError noResult =>
    exact Or.inl (onBatch_databaseId E st id' operations continueOnError noResult st' r h)

/-- The handles allocated along a call trace: the allocator value after every
call that advanced it (an open call that did not take the single-instance
recovery path). -/
def traceAllocatedIds {σ : Type} (E : SqlEngine σ) :
    PluginState σ → List PluginCall → List Int
  | _, [] => []
  | st, c :: rest =>
    match runCall E st c with
    | none => []
    | some (st', _) =>
      if st'.databaseId = st.databaseId then traceAllocatedIds E st' rest
      else st'.databaseId :: traceAllocatedIds E st' rest

/-- C7: along every call trace from any registry state, every allocated handle
exceeds the starting allocator value and the allocated handles are pairwise
strictly increasing in allocation order — a handle value is never reallocated
while the process runs. -/
theorem allocated_handles_strictly_increase {σ : Type} (E : SqlEngine σ)
    (st : PluginState σ) (calls : List PluginCall) :
    (∀ i ∈ traceAllocatedIds E st calls, st.databaseId < i) ∧
    List.Pairwise (· < ·) (traceAllocatedIds E st calls) := by
  induction calls generalizing st with
  | nil => exact ⟨by simp [traceAllocatedIds], by simp [traceAllocatedIds]⟩
  | cons c rest ih =>
    cases hr : runCall E st c with
    | none =>
      constructor
      · intro i hi
        simp [traceAllocatedIds, hr] at hi
      · simp [traceAllocatedIds, hr]
    | some p =>
      obtain ⟨st', r⟩ := p
      have hid := runCall_databaseId E st c st' r hr
      obtain ⟨ihb, ihp⟩ := ih st'
      by_cases he : st'.databaseId = st.databaseId
      · have htr : traceAllocatedIds E st (c :: rest) = traceAllocatedIds E st' rest := by
          simp [traceAllocatedIds, hr, he]
        constructor
        · intro i hi
          rw [htr] at hi
          have := ihb i hi
          omega
        · rw [htr]; exact ihp
      · have h1 : st'.databaseId = st.databaseId + 1 := hid.resolve_left he
        have htr : traceAllocatedIds E st (c :: rest) =
            st'.databaseId :: traceAllocatedIds E st' rest := by
          simp [traceAllocatedIds, hr, he]
        constructor
        · intro i hi
          rw [htr] at hi
          rcases List.mem_cons.mp hi with h | h
          · omega
          · have := ihb i h
            omega
        · rw [htr]
          exact List.pairwise_cons.mpr ⟨fun i hi => by have := ihb i hi; omega, ihp⟩

end Sqflite
